import Mathlib

/-!
Verification of the BM25S retrieval adapter and the Docling API loader of
bet0x/open-webui, shallowly embedded in Lean 4.

Embedded source files:
* `backend/open_webui/retrieval/bm25s_adapter.py` (`BM25SRetriever`)
* `backend/open_webui/retrieval/loaders/docling_api.py` (`DoclingApiLoader`)

Conventions of the embedding:
* Python dicts used for document metadata become insertion-ordered
  association lists (`Metadata`); assignment to an existing key updates it
  in place, assignment to a missing key appends, matching CPython.
* Python floats carrying BM25 scores become `ℚ` (the adapter only moves
  them around and compares dict keys; it does no float arithmetic).
* Raising an exception becomes returning `Except.error`; in-place mutation
  of `self.metadatas` becomes threading the metadata list through the
  result-processing loop and returning the updated retriever state.
* The external `bm25s` library (tokenizer, index, scorer) is not part of
  the repository; it is modelled from the spec (sections 4.1-4.4) as a
  `Backend`, with the real-valued BM25 formula abstracted into a scorer
  argument, and `specBackend` implementing the spec's deterministic
  top-k selection.
-/

set_option autoImplicit false

namespace OpenWebUI

/-- A metadata value: the adapter stores strings and numbers (the BM25
score is a float, modelled as `ℚ`). -/
inductive MVal where
  | str (s : String)
  | num (q : ℚ)
deriving DecidableEq, Repr

/-- A Python dict used as document metadata: an insertion-ordered
association list with unique keys. -/
abbrev Metadata := List (String × MVal)

/-- Python `key in dict`. -/
def dictContains (m : Metadata) (key : String) : Bool :=
  m.any (fun kv => kv.1 == key)

/-- Python `dict[key] = v`: update in place when the key is present
(order preserved), append otherwise. -/
def dictSet (m : Metadata) (key : String) (v : MVal) : Metadata :=
  if dictContains m key then
    m.map (fun kv => if kv.1 == key then (key, v) else kv)
  else
    m ++ [(key, v)]

/-- Python `dict.get(key)`. -/
def dictGet (m : Metadata) (key : String) : Option MVal :=
  (m.find? (fun kv => kv.1 == key)).map (fun kv => kv.2)

/-- The `langchain_core.documents.Document` value as used by both embedded
files: `page_content` plus a metadata dict. -/
structure Document where
  page_content : String
  metadata : Metadata
deriving DecidableEq, Repr

/-! ## The scoring backend (`bm25s` library)

`bm25s` is an external dependency, not part of this repository.  Its
contract is modelled from the spec: `tokenize` is a pure function from
text to a token sequence (spec 4.1), and `retrieve` either returns the
row of top-k corpus texts with their scores (spec 4.4 steps 2-3) or
fails (spec 7, `QueryProcessingError` source).  Failure is represented
as `Except.error`, matching a raised Python exception. -/

/-- Modelled from the spec: the interface the adapter consumes from the
`bm25s` library — a tokenizer (section 4.1) and a fallible top-k
retrieval over the corpus (sections 4.2-4.4); on success it returns the
selected corpus texts paired with their scores, row-aligned like the
numpy arrays `results[0, :]` and `scores[0, :]` of the source. -/
structure Backend where
  tokenize : String → List String
  retrieve : List String → List String → Int → Except String (List String × List ℚ)

/-- Modelled from the spec: top-k selection (section 4.4 step 3) —
"Select the top `k` by score descending; tie-break by ascending
document_id".  Returns the selected document ids. -/
def topkIds (scores : List ℚ) (k : Nat) : List Nat :=
  ((List.range scores.length).insertionSort
    (fun i j => scores.getD j 0 < scores.getD i 0 ∨
      (scores.getD i 0 = scores.getD j 0 ∧ i ≤ j))).take k

/-- Modelled from the spec: retrieval (section 4.4 steps 2-3) — score
every document id of the corpus with the given scorer, then select the
top k.  The BM25 formula itself (section 4.3) is real-valued and is
abstracted as the `score` argument: theorems quantify over every
scorer.  Returns the selected texts and their scores, as the source's
`results`/`scores` rows do. -/
def specRetrieve (score : List String → List String → Nat → ℚ)
    (queryTokens : List String) (texts : List String) (k : Int) :
    List String × List ℚ :=
  let scores := (List.range texts.length).map (score queryTokens texts)
  let ids := topkIds scores k.toNat
  (ids.map (fun i => texts.getD i ""), ids.map (fun i => scores.getD i 0))

/-- Modelled from the spec: a `bm25s` backend built from a pure tokenizer
and scorer; its retrieval never fails (failure cases enter theorems
through arbitrary `Backend` values instead). -/
def specBackend (tok : String → List String)
    (score : List String → List String → Nat → ℚ) : Backend where
  tokenize := tok
  retrieve := fun qt texts k => .ok (specRetrieve score qt texts k)

/-! ## `BM25SRetriever` (bm25s_adapter.py) -/

/-- The state of a `BM25SRetriever` (lines 20-28): the original texts,
the original metadata dicts, `k`, and whether the Numba scorer was
activated.  The BM25 index is functionally determined by `texts`
(built once in `__init__`, lines 41-43, from the same `texts` the
adapter later passes as `corpus=`), so it carries no separate state
here: the backend recomputes from `texts`. -/
structure BM25SRetriever where
  texts : List String
  metadatas : List Metadata
  k : Int
  numbaActive : Bool
deriving DecidableEq, Repr

/-- Construction-time failure of `__init__`: the `ImportError` raised at
lines 32-35 when the `bm25s` package is unavailable (the spec's
`ConfigurationError` condition). -/
inductive InitError where
  | importError
deriving DecidableEq, Repr

/-- Embeds `BM25SRetriever.__init__` (lines 30-50).  `available` models the
module-level `BM25S_AVAILABLE` flag (lines 11-17); `numbaOk` models
whether `activate_numba_scorer()` (line 47) succeeds — when it raises,
the exception is caught and only logged (lines 49-50), so construction
proceeds with the baseline scorer.  No validation of `texts`/`metadatas`
lengths or of `k` is performed. -/
def BM25SRetriever.init (available : Bool) (numbaOk : Bool)
    (texts : List String) (metadatas : List Metadata) (k : Int) :
    Except InitError BM25SRetriever :=
  if !available then
    .error .importError
  else
    .ok { texts := texts, metadatas := metadatas, k := k, numbaActive := numbaOk }

/-- One iteration of the result-conversion loop of
`_get_relevant_documents` (lines 78-95), for result text `doc_text` and
the current query score `score?` (`some` iff `i < len(scores[0])`;
`scores` is always a numpy array here, so the `isinstance` guard of
lines 84 and 93 is the bounds check).  `ms` is the current state of
`self.metadatas`; the returned state reflects the in-place mutation of
the shared metadata dict at line 87.
* Line 81 `self.texts.index(doc_text)`: first index whose text equals
  `doc_text`, `ValueError` (the `| none` branch, lines 89-95) if absent.
* Line 82: the stored dict when `doc_idx < len(self.metadatas)`, a fresh
  empty dict otherwise.
* Lines 86-87: `score` is written only when the key is absent — and the
  write hits the stored dict itself, which `List.set` mirrors
  (out-of-range `set` is the identity, matching the fresh-dict case).
* Line 88 / 95: the `Document` is built from the dict as it stands after
  the write; no later iteration mutates a dict that already has a
  `score` key, so capturing the value here is faithful. -/
def processItem (texts : List String) (ms : List Metadata)
    (doc_text : String) (score? : Option ℚ) : Document × List Metadata :=
  match texts.findIdx? (fun t => t == doc_text) with
  | some doc_idx =>
    let metadata := ms.getD doc_idx []
    match score? with
    | some s =>
      if dictContains metadata "score" then
        (⟨doc_text, metadata⟩, ms)
      else
        let m' := dictSet metadata "score" (.num s)
        (⟨doc_text, m'⟩, ms.set doc_idx m')
    | none => (⟨doc_text, metadata⟩, ms)
  | none =>
    match score? with
    | some s => (⟨doc_text, [("score", .num s)]⟩, ms)
    | none => (⟨doc_text, []⟩, ms)

/-- The result-conversion loop of `_get_relevant_documents`
(lines 76-95): one `Document` appended per result column, scores
consumed positionally, the metadata state threaded through (mutation of
`self.metadatas` entries). -/
def processLoop (texts : List String) :
    List String → List ℚ → List Metadata → List Document × List Metadata
  | [], _, ms => ([], ms)
  | doc_text :: rest, ss, ms =>
    let p := processItem texts ms doc_text ss.head?
    let q := processLoop texts rest ss.tail p.2
    (p.1 :: q.1, q.2)

/-- Embeds `BM25SRetriever._get_relevant_documents` (lines 52-99) against a
backend `b`.  Tokenization (line 57) and retrieval (lines 63-67) happen
outside the `try` of line 77, so a backend failure propagates as an
exception (`Except.error`).  On success the result-conversion loop runs;
in this embedding the loop body is total, so the `except` of lines 96-97
is unreachable.  Returns the documents and the retriever's state after
the call (lines 86-87 may have mutated stored metadata). -/
def BM25SRetriever.getRelevantDocuments (b : Backend) (r : BM25SRetriever)
    (query : String) : Except String (List Document × BM25SRetriever) :=
  let query_tokens := b.tokenize query
  match b.retrieve query_tokens r.texts r.k with
  | .error e => .error e
  | .ok (results, scores) =>
    let p := processLoop r.texts results scores r.metadatas
    .ok (p.1, { r with metadatas := p.2 })

/-! ## `DoclingApiLoader` (docling_api.py)

The loader wraps one HTTP round trip.  The request/response exchange is
external I/O; what `load` does with the outcome is pure and is embedded
here.  An `ApiResponse` is the outcome of the `requests.post` call of
line 69 as `load` observes it. -/

/-- The nested `document` object a conversion response may carry
(lines 92-95): the same four optional content fields, read with
`dict.get` defaults. -/
structure DocObj where
  content? : Option String
  text? : Option String
  markdown? : Option String
  md_content? : Option String
deriving DecidableEq, Repr

/-- A parsed successful conversion response (`response.json()`,
line 73), restricted to the fields `load` reads: the four optional
top-level content strings (lines 82-89, presence-checked in order), the
optional nested `document` object (lines 92-95), and the optional extra
`metadata` mapping (lines 110-111). -/
structure ConvertResult where
  content? : Option String
  text? : Option String
  markdown? : Option String
  md_content? : Option String
  document? : Option DocObj
  metadata? : Option (List (String × String))
deriving DecidableEq, Repr

/-- The outcome of the HTTP call as observed by `load`:
* `ok`: `response.ok` with a parsed JSON body;
* `httpError`: `not response.ok`, with status code, reason, body text,
  and the outcome of parsing the body for a `detail` field
  (lines 115-122): `.ok (some d)` = body parses and has `detail`,
  `.ok none` = body parses without `detail`, `.error ()` = body fails
  to parse;
* `raised`: any exception raised inside the `try` of lines 48-125
  (connection failure, file read error, malformed body on the ok
  path, ...), carrying its message. -/
inductive ApiResponse where
  | ok (result : ConvertResult)
  | httpError (status : Nat) (reason : String) (body : String)
      (detail : Except Unit (Option String))
  | raised (msg : String)
deriving Repr

/-- The content-extraction cascade of lines 79-95 without the final
placeholder step: the first *present* top-level field among `content`,
`text`, `markdown`, `md_content` (lines 82-89; an empty present value
still wins the `elif` chain), then — only when the value so far is
falsy — the `document` object's fields via chained `get` defaults
(lines 92-95). -/
def rawContent (result : ConvertResult) : String :=
  let content :=
    match result.content? with
    | some c => c
    | none =>
      match result.text? with
      | some c => c
      | none =>
        match result.markdown? with
        | some c => c
        | none =>
          match result.md_content? with
          | some c => c
          | none => ""
  if content = "" then
    match result.document? with
    | some d => d.content?.getD (d.text?.getD (d.markdown?.getD (d.md_content?.getD "")))
    | none => content
  else content

/-- Lines 97-99: a still-falsy content becomes the placeholder. -/
def extractContent (result : ConvertResult) : String :=
  let c := rawContent result
  if c = "" then "<No text content found>" else c

/-- The error message assembled on a non-ok response (lines 115-122). -/
def doclingErrorMsg (status : Nat) (reason : String) (body : String)
    (detail : Except Unit (Option String)) : String :=
  let base := "Error calling Docling API: " ++ toString status ++ " - " ++ reason
  if body = "" then base
  else
    match detail with
    | .ok (some d) => base ++ " - " ++ d
    | .ok none => base
    | .error _ => base ++ " - " ++ body

/-- Embeds `DoclingApiLoader.load` (lines 41-129) as a function of the
file name, its mime type (both fixed at construction) and the observed
HTTP outcome.  Success builds one `Document` from the extracted content
and the `source`/`content_type` metadata updated with the response's
extra metadata (lines 103-113); a non-ok response or a raised exception
builds one error `Document` (lines 125 and 129). -/
def DoclingApiLoader.load (file_name mime_type : String) (resp : ApiResponse) :
    List Document :=
  match resp with
  | .ok result =>
    let content := extractContent result
    let metadata : Metadata := [("source", .str file_name), ("content_type", .str mime_type)]
    let metadata :=
      match result.metadata? with
      | some kvs => kvs.foldl (fun m kv => dictSet m kv.1 (.str kv.2)) metadata
      | none => metadata
    [⟨content, metadata⟩]
  | .httpError status reason body detail =>
    [⟨"Error during processing: " ++ doclingErrorMsg status reason body detail, []⟩]
  | .raised msg =>
    [⟨"Error during processing: " ++ msg, []⟩]


/-! ## Helper lemmas about the result-conversion loop -/

/-- Setting a key makes it present. -/
theorem dictContains_dictSet_self (m : Metadata) (key : String) (v : MVal) :
    dictContains (dictSet m key v) key = true := by
  unfold dictSet
  by_cases h : dictContains m key = true
  · simp only [h, if_true]
    unfold dictContains at h ⊢
    rw [List.any_eq_true] at h ⊢
    obtain ⟨kv, hmem, hkv⟩ := h
    refine ⟨(key, v), ?_, by simp⟩
    rw [List.mem_map]
    exact ⟨kv, hmem, by simp [hkv]⟩
  · simp only [h, if_false]
    unfold dictContains
    simp [List.any_append]

/-- The loop step appends exactly one document per result column: state
length is preserved. -/
theorem processItem_snd_length (texts : List String) (ms : List Metadata)
    (dt : String) (s? : Option ℚ) :
    ((processItem texts ms dt s?).2).length = ms.length := by
  unfold processItem
  cases hi : texts.findIdx? (fun t => t == dt) with
  | none => cases s? <;> simp
  | some idx =>
    cases s? with
    | none => simp
    | some s =>
      dsimp only
      cases hc : dictContains (ms.getD idx []) "score" <;> simp [hc]

/-- One document is produced per result column. -/
theorem processLoop_fst_length (texts : List String) :
    ∀ (rs : List String) (ss : List ℚ) (ms : List Metadata),
      ((processLoop texts rs ss ms).1).length = rs.length := by
  intro rs
  induction rs with
  | nil => intro ss ms; rfl
  | cons dt rest ih => intro ss ms; simp [processLoop, ih]

/-- The loop preserves the length of the stored metadata list. -/
theorem processLoop_snd_length (texts : List String) :
    ∀ (rs : List String) (ss : List ℚ) (ms : List Metadata),
      ((processLoop texts rs ss ms).2).length = ms.length := by
  intro rs
  induction rs with
  | nil => intro ss ms; rfl
  | cons dt rest ih =>
    intro ss ms
    simp [processLoop, ih, processItem_snd_length]

/-- A stored metadata dict that already has a `score` key is never
touched by a loop step. -/
theorem processItem_snd_getD (texts : List String) (ms : List Metadata)
    (dt : String) (s? : Option ℚ) (idx : Nat)
    (h : dictContains (ms.getD idx []) "score" = true) :
    ((processItem texts ms dt s?).2).getD idx [] = ms.getD idx [] := by
  unfold processItem
  cases hi : texts.findIdx? (fun t => t == dt) with
  | none => cases s? <;> simp
  | some j =>
    cases s? with
    | none => simp
    | some s =>
      dsimp only
      cases hc : dictContains (ms.getD j []) "score" with
      | true => simp [hc]
      | false =>
        have hne : j ≠ idx := by
          intro he
          rw [he, h] at hc
          simp at hc
        simp [hc, List.getD, List.getElem?_set_ne hne]

/-- A stored metadata dict that already has a `score` key is never
touched by the whole loop. -/
theorem processLoop_snd_getD (texts : List String) :
    ∀ (rs : List String) (ss : List ℚ) (ms : List Metadata) (idx : Nat),
      dictContains (ms.getD idx []) "score" = true →
      ((processLoop texts rs ss ms).2).getD idx [] = ms.getD idx [] := by
  intro rs
  induction rs with
  | nil => intro ss ms idx h; rfl
  | cons dt rest ih =>
    intro ss ms idx h
    have h1 := processItem_snd_getD texts ms dt ss.head? idx h
    have h2 : dictContains (((processItem texts ms dt ss.head?).2).getD idx []) "score" = true := by
      rw [h1]; exact h
    calc ((processLoop texts (dt :: rest) ss ms).2).getD idx []
        = ((processLoop texts rest ss.tail (processItem texts ms dt ss.head?).2).2).getD idx [] := by
          simp [processLoop]
      _ = ((processItem texts ms dt ss.head?).2).getD idx [] := ih ss.tail _ idx h2
      _ = ms.getD idx [] := h1

/-- With no score available the loop step leaves the state unchanged. -/
theorem processItem_none_snd (texts : List String) (ms : List Metadata) (dt : String) :
    (processItem texts ms dt none).2 = ms := by
  unfold processItem
  cases texts.findIdx? (fun t => t == dt) <;> simp

/-- With no scores left the loop leaves the state unchanged. -/
theorem processLoop_nil_scores_snd (texts : List String) :
    ∀ (rs : List String) (ms : List Metadata), (processLoop texts rs [] ms).2 = ms := by
  intro rs
  induction rs with
  | nil => intro ms; rfl
  | cons dt rest ih =>
    intro ms
    simp [processLoop, processItem_none_snd, ih]

/-- Replaying one loop step on the final state of the remaining loop
reproduces the same document and leaves that state unchanged: the only
mutation a step performs is writing `score` into a dict that lacked it,
and such a dict is never touched again. -/
theorem processItem_replay (texts rs : List String) (ss : List ℚ)
    (ms : List Metadata) (dt : String) :
    processItem texts ((processLoop texts rs ss.tail (processItem texts ms dt ss.head?).2).2) dt ss.head? =
      ((processItem texts ms dt ss.head?).1,
        (processLoop texts rs ss.tail (processItem texts ms dt ss.head?).2).2) := by
  cases ss with
  | nil =>
    simp only [List.head?_nil, List.tail_nil]
    rw [processLoop_nil_scores_snd, processItem_none_snd texts ms dt]
    rw [Prod.ext_iff]
    exact ⟨rfl, processItem_none_snd texts ms dt⟩
  | cons s rest =>
    simp only [List.head?_cons, List.tail_cons]
    cases hi : texts.findIdx? (fun t => t == dt) with
    | none =>
      have hp : processItem texts ms dt (some s) = (⟨dt, [("score", .num s)]⟩, ms) := by
        unfold processItem; rw [hi]
      rw [hp]
      unfold processItem; rw [hi]
    | some idx =>
      cases hc : dictContains (ms.getD idx []) "score" with
      | true =>
        have hp : processItem texts ms dt (some s) = (⟨dt, ms.getD idx []⟩, ms) := by
          unfold processItem; rw [hi]; dsimp only; rw [hc, if_pos rfl]
        rw [hp]
        dsimp only
        have hst := processLoop_snd_getD texts rs rest ms idx hc
        have hc2 : dictContains (((processLoop texts rs rest ms).2).getD idx []) "score" = true := by
          rw [hst]; exact hc
        unfold processItem; rw [hi]; dsimp only; rw [hc2, if_pos rfl, hst]
      | false =>
        by_cases hlen : idx < ms.length
        · have hp : processItem texts ms dt (some s) =
              (⟨dt, dictSet (ms.getD idx []) "score" (.num s)⟩,
                ms.set idx (dictSet (ms.getD idx []) "score" (.num s))) := by
            unfold processItem; rw [hi]; dsimp only; rw [hc, if_neg (by simp)]
          rw [hp]
          dsimp only
          have hset : ((ms.set idx (dictSet (ms.getD idx []) "score" (.num s))).getD idx []) =
              dictSet (ms.getD idx []) "score" (.num s) := by
            simp [List.getD, List.getElem?_set_self, hlen]
          have hcm : dictContains (dictSet (ms.getD idx []) "score" (.num s)) "score" = true :=
            dictContains_dictSet_self _ _ _
          have hc2 : dictContains (((ms.set idx (dictSet (ms.getD idx []) "score" (.num s))).getD idx [])) "score" = true := by
            rw [hset]; exact hcm
          have hst := processLoop_snd_getD texts rs rest _ idx hc2
          rw [hset] at hst
          have hc3 : dictContains (((processLoop texts rs rest (ms.set idx (dictSet (ms.getD idx []) "score" (.num s)))).2).getD idx []) "score" = true := by
            rw [hst]; exact hcm
          unfold processItem; rw [hi]; dsimp only; rw [hc3, if_pos rfl, hst]
        · have hle : ms.length ≤ idx := Nat.le_of_not_lt hlen
          have hget : ms.getD idx [] = [] := by
            simp [List.getD, List.getElem?_eq_none hle]
          have hp : processItem texts ms dt (some s) =
              (⟨dt, dictSet ([] : Metadata) "score" (.num s)⟩, ms) := by
            unfold processItem; rw [hi]; dsimp only; rw [hget]
            rw [if_neg (by simp [dictContains])]
            rw [List.set_eq_of_length_le hle]
          rw [hp]
          dsimp only
          have hlen2 : ((processLoop texts rs rest ms).2).length ≤ idx := by
            rw [processLoop_snd_length]; exact hle
          have hget2 : ((processLoop texts rs rest ms).2).getD idx [] = [] := by
            simp [List.getD, List.getElem?_eq_none hlen2]
          unfold processItem; rw [hi]; dsimp only; rw [hget2]
          rw [if_neg (by simp [dictContains])]
          rw [List.set_eq_of_length_le hlen2]

/-- Running the result-conversion loop a second time, from the state the
first run produced, returns the same documents and the same state. -/
theorem processLoop_replay (texts : List String) :
    ∀ (rs : List String) (ss : List ℚ) (ms : List Metadata),
      processLoop texts rs ss ((processLoop texts rs ss ms).2) = processLoop texts rs ss ms := by
  intro rs
  induction rs with
  | nil => intro ss ms; rfl
  | cons dt rest ih =>
    intro ss ms
    have hrep := processItem_replay texts rest ss ms dt
    conv_lhs => rw [show (processLoop texts (dt :: rest) ss ms).2 =
      (processLoop texts rest ss.tail (processItem texts ms dt ss.head?).2).2 from rfl]
    show (let p := processItem texts ((processLoop texts rest ss.tail (processItem texts ms dt ss.head?).2).2) dt ss.head?
          let q := processLoop texts rest ss.tail p.2
          (p.1 :: q.1, q.2)) = processLoop texts (dt :: rest) ss ms
    rw [hrep]
    dsimp only
    rw [ih ss.tail (processItem texts ms dt ss.head?).2]
    rfl

/-- Against a pure spec backend, a retrieval call reduces to the
result-conversion loop over the spec's top-k selection. -/
theorem getRelevantDocuments_specBackend (tok : String → List String)
    (score : List String → List String → Nat → ℚ) (r : BM25SRetriever) (q : String) :
    BM25SRetriever.getRelevantDocuments (specBackend tok score) r q =
      .ok ((processLoop r.texts (specRetrieve score (tok q) r.texts r.k).1
              (specRetrieve score (tok q) r.texts r.k).2 r.metadatas).1,
           { r with metadatas := (processLoop r.texts (specRetrieve score (tok q) r.texts r.k).1
              (specRetrieve score (tok q) r.texts r.k).2 r.metadatas).2 }) := rfl

/-! ## Claims -/

/-- C1: the claim says duplicate-text documents are resolved by id and
keep their own metadata.  The code instead resolves each result with
`self.texts.index(doc_text)` (line 81), the first content match: on a
corpus of two documents with equal text `"cat dog"` but metadata
`{id:0, tag:"a"}` / `{id:1, tag:"b"}`, both returned results carry
document 0's metadata (and its score); document 1's metadata (`tag "b"`,
a genuinely different value) never appears. -/
theorem retrieve_resolves_by_text_aliases_duplicates :
    BM25SRetriever.getRelevantDocuments
        (specBackend (fun _ => ["cat", "dog"]) (fun _ _ i => if i = 0 then 2 else 1))
        ⟨["cat dog", "cat dog"],
         [[("id", MVal.num 0), ("tag", MVal.str "a")],
          [("id", MVal.num 1), ("tag", MVal.str "b")]], 2, true⟩ "cat dog" =
      .ok ([⟨"cat dog", [("id", MVal.num 0), ("tag", MVal.str "a"), ("score", MVal.num 2)]⟩,
            ⟨"cat dog", [("id", MVal.num 0), ("tag", MVal.str "a"), ("score", MVal.num 2)]⟩],
           ⟨["cat dog", "cat dog"],
            [[("id", MVal.num 0), ("tag", MVal.str "a"), ("score", MVal.num 2)],
             [("id", MVal.num 1), ("tag", MVal.str "b")]], 2, true⟩) ∧
    MVal.str "a" ≠ MVal.str "b" :=
  ⟨rfl, by decide⟩

/-- C2: the claim says results carry fresh copies and stored metadata is
unchanged by `retrieve`.  The code takes the stored dict by reference
(line 82) and writes `score` into it (line 87): after one call on a
one-document corpus, the retriever's stored metadata has gained a
`score` entry. -/
theorem retrieve_mutates_stored_metadata :
    BM25SRetriever.getRelevantDocuments (specBackend (fun _ => ["cat"]) (fun _ _ _ => 5))
        ⟨["cat"], [[("tag", MVal.str "a")]], 1, true⟩ "cat" =
      .ok ([⟨"cat", [("tag", MVal.str "a"), ("score", MVal.num 5)]⟩],
           ⟨["cat"], [[("tag", MVal.str "a"), ("score", MVal.num 5)]], 1, true⟩) ∧
    ([[("tag", MVal.str "a"), ("score", MVal.num 5)]] : List Metadata) ≠
      [[("tag", MVal.str "a")]] :=
  ⟨rfl, by decide⟩

/-- C3 counterexample: construction with 3 texts and 2 metadata dicts,
and with k = -1, succeeds — `__init__` performs no `InvalidArgument`
validation at all. -/
theorem init_accepts_mismatched_lengths_and_nonpositive_k :
    (BM25SRetriever.init true true ["a", "b", "c"] [[], []] 4).isOk = true ∧
    (BM25SRetriever.init true true ["a"] [[]] (-1)).isOk = true :=
  ⟨rfl, rfl⟩

/-- C3 amended: with the bm25s dependency available, construction never
validates `texts`/`metadatas` lengths or `k`: it always succeeds and
stores the arguments unchanged. -/
theorem init_performs_no_validation (numbaOk : Bool) (texts : List String)
    (metadatas : List Metadata) (k : Int) :
    BM25SRetriever.init true numbaOk texts metadatas k =
      .ok ⟨texts, metadatas, k, numbaOk⟩ := rfl

/-- C4 counterexample: with a stored metadata dict already containing
`score: 99`, a query whose computed score for that document is 5 returns
the stale 99 — the guard `if 'score' not in metadata` (line 86) never
overwrites. -/
theorem retrieve_returns_stale_score :
    BM25SRetriever.getRelevantDocuments (specBackend (fun _ => ["cat"]) (fun _ _ _ => 5))
        ⟨["cat"], [[("score", MVal.num 99)]], 1, true⟩ "cat" =
      .ok ([⟨"cat", [("score", MVal.num 99)]⟩],
           ⟨["cat"], [[("score", MVal.num 99)]], 1, true⟩) ∧
    specRetrieve (fun _ _ _ => 5) ["cat"] ["cat"] 1 = (["cat"], [5]) ∧
    MVal.num 99 ≠ MVal.num 5 :=
  ⟨rfl, rfl, by decide⟩

/-- C4 amended: in the per-result assembly step of
`_get_relevant_documents` (lines 79-88), the `score` field is set to the
current query's computed score exactly when the resolved stored metadata
lacks a `score` key; otherwise the pre-existing (possibly stale) value
is returned unchanged and nothing is written. -/
theorem score_set_only_when_absent (texts : List String) (ms : List Metadata)
    (dt : String) (s : ℚ) (idx : Nat)
    (h : texts.findIdx? (fun t => t == dt) = some idx) :
    processItem texts ms dt (some s) =
      if dictContains (ms.getD idx []) "score" = true then
        (⟨dt, ms.getD idx []⟩, ms)
      else
        (⟨dt, dictSet (ms.getD idx []) "score" (.num s)⟩,
          ms.set idx (dictSet (ms.getD idx []) "score" (.num s))) := by
  unfold processItem
  rw [h]

/-- Witness for C4's amended theorem at a concrete resolved index. -/
theorem score_set_only_when_absent_witness :
    processItem ["cat"] [[]] "cat" (some 5) =
      if dictContains (([[]] : List Metadata).getD 0 []) "score" = true then
        (⟨"cat", ([[]] : List Metadata).getD 0 []⟩, [[]])
      else
        (⟨"cat", dictSet (([[]] : List Metadata).getD 0 []) "score" (.num 5)⟩,
          ([[]] : List Metadata).set 0 (dictSet (([[]] : List Metadata).getD 0 []) "score" (.num 5))) :=
  score_set_only_when_absent ["cat"] [[]] "cat" 5 0 rfl

/-- C5 counterexample: a failure of the scoring backend (tokenize /
retrieve, lines 57-67) happens outside the `try` of line 77, so it
propagates to the caller as an exception instead of yielding an empty
result list. -/
theorem retrieve_scoring_failure_raises :
    BM25SRetriever.getRelevantDocuments
        ⟨fun _ => ["q"], fun _ _ _ => .error "scoring backend failure"⟩
        ⟨["doc"], [[]], 4, true⟩ "q" = .error "scoring backend failure" ∧
    (BM25SRetriever.getRelevantDocuments
        ⟨fun _ => ["q"], fun _ _ _ => .error "scoring backend failure"⟩
        ⟨["doc"], [[]], 4, true⟩ "q").isOk = false :=
  ⟨rfl, rfl⟩

/-- C5 amended: a scoring-backend failure propagates out of `retrieve`
unchanged; when the backend succeeds, the call returns normally with the
converted results (in the source, only failures inside the
result-conversion loop are caught by the `try` of lines 77-97). -/
theorem retrieve_failure_semantics (b : Backend) (r : BM25SRetriever) (q : String) :
    (∀ e, b.retrieve (b.tokenize q) r.texts r.k = .error e →
      BM25SRetriever.getRelevantDocuments b r q = .error e) ∧
    (∀ R S, b.retrieve (b.tokenize q) r.texts r.k = .ok (R, S) →
      BM25SRetriever.getRelevantDocuments b r q =
        .ok ((processLoop r.texts R S r.metadatas).1,
             { r with metadatas := (processLoop r.texts R S r.metadatas).2 })) := by
  constructor
  · intro e he
    unfold BM25SRetriever.getRelevantDocuments
    dsimp only
    rw [he]
  · intro R S hok
    unfold BM25SRetriever.getRelevantDocuments
    dsimp only
    rw [hok]

/-- Witness for C5's amended theorem: one failing backend, one
succeeding backend. -/
theorem retrieve_failure_semantics_witness :
    BM25SRetriever.getRelevantDocuments ⟨fun _ => [], fun _ _ _ => .error "bad topk shape"⟩
        ⟨["a"], [[]], 4, true⟩ "q" = .error "bad topk shape" ∧
    BM25SRetriever.getRelevantDocuments ⟨fun _ => [], fun _ _ _ => .ok (["a"], [1])⟩
        ⟨["a"], [[]], 4, true⟩ "q" =
      .ok ([⟨"a", [("score", MVal.num 1)]⟩], ⟨["a"], [[("score", MVal.num 1)]], 4, true⟩) :=
  ⟨(retrieve_failure_semantics _ _ _).1 "bad topk shape" rfl,
   ((retrieve_failure_semantics _ _ _).2 ["a"] [1] rfl).trans rfl⟩

/-- C6: with k > 0, a retrieval over the spec backend returns at most
min(k, n) results: the spec's top-k selection hands the loop
min(k, n) columns and the loop produces one document per column. -/
theorem retrieve_result_length_le_min (tok : String → List String)
    (score : List String → List String → Nat → ℚ) (r : BM25SRetriever) (q : String)
    (docs : List Document) (r' : BM25SRetriever)
    (_hk : 0 < r.k)
    (h : BM25SRetriever.getRelevantDocuments (specBackend tok score) r q = .ok (docs, r')) :
    docs.length ≤ min r.k.toNat r.texts.length := by
  rw [getRelevantDocuments_specBackend] at h
  simp only [Except.ok.injEq, Prod.mk.injEq] at h
  obtain ⟨h1, h2⟩ := h
  subst h1
  have hlen : (specRetrieve score (tok q) r.texts r.k).1.length = min r.k.toNat r.texts.length := by
    unfold specRetrieve topkIds
    simp [List.length_insertionSort]
  rw [processLoop_fst_length, hlen]

/-- Witness for C6 on a one-document corpus with k = 1. -/
theorem retrieve_result_length_le_min_witness :
    ([⟨"cat", [("score", MVal.num 1)]⟩] : List Document).length ≤
      min ((1 : Int)).toNat (["cat"] : List String).length :=
  retrieve_result_length_le_min (fun _ => []) (fun _ _ _ => 1)
    ⟨["cat"], [[]], 1, true⟩ "cat" [⟨"cat", [("score", MVal.num 1)]⟩]
    ⟨["cat"], [[("score", MVal.num 1)]], 1, true⟩ (by decide) rfl

/-- C7: repeating the same query against the retriever state left by the
first call gives the identical result list (and state).  The only
mutation a call performs is writing `score` into stored dicts that
lacked it, which is invisible to an identical repeat: scoring is
deterministic and a dict that has a `score` key is never rewritten. -/
theorem retrieve_idempotent (tok : String → List String)
    (score : List String → List String → Nat → ℚ) (r : BM25SRetriever) (q : String)
    (docs : List Document) (r' : BM25SRetriever)
    (h : BM25SRetriever.getRelevantDocuments (specBackend tok score) r q = .ok (docs, r')) :
    BM25SRetriever.getRelevantDocuments (specBackend tok score) r' q = .ok (docs, r') := by
  rw [getRelevantDocuments_specBackend] at h
  simp only [Except.ok.injEq, Prod.mk.injEq] at h
  obtain ⟨h1, h2⟩ := h
  subst h2
  subst h1
  rw [getRelevantDocuments_specBackend]
  dsimp only
  rw [processLoop_replay]

/-- Witness for C7: the second call on the post-call state reproduces
the first call's results. -/
theorem retrieve_idempotent_witness :
    BM25SRetriever.getRelevantDocuments (specBackend (fun _ => []) (fun _ _ _ => 1))
        ⟨["cat"], [[("score", MVal.num 1)]], 1, true⟩ "cat" =
      .ok ([⟨"cat", [("score", MVal.num 1)]⟩], ⟨["cat"], [[("score", MVal.num 1)]], 1, true⟩) :=
  retrieve_idempotent (fun _ => []) (fun _ _ _ => 1) ⟨["cat"], [[]], 1, true⟩ "cat"
    [⟨"cat", [("score", MVal.num 1)]⟩] ⟨["cat"], [[("score", MVal.num 1)]], 1, true⟩ rfl

/-- C8: a failed Numba activation (lines 46-50) is caught: construction
still succeeds with `numbaActive = false`, and retrieval results do not
depend on the flag — scoring proceeds on the baseline path. -/
theorem init_numba_failure_nonfatal (texts : List String) (metadatas : List Metadata)
    (k : Int) (b : Backend) (q : String) :
    BM25SRetriever.init true false texts metadatas k = .ok ⟨texts, metadatas, k, false⟩ ∧
    (BM25SRetriever.getRelevantDocuments b ⟨texts, metadatas, k, false⟩ q).map (fun p => p.1) =
      (BM25SRetriever.getRelevantDocuments b ⟨texts, metadatas, k, true⟩ q).map (fun p => p.1) := by
  refine ⟨rfl, ?_⟩
  unfold BM25SRetriever.getRelevantDocuments
  dsimp only
  cases b.retrieve (b.tokenize q) texts k <;> rfl

/-- C9: with the bm25s dependency unavailable, `__init__` raises
`ImportError` (the spec's `ConfigurationError`): no retriever is
produced, whatever the other arguments. -/
theorem init_missing_backend_fails (numbaOk : Bool) (texts : List String)
    (metadatas : List Metadata) (k : Int) :
    BM25SRetriever.init false numbaOk texts metadatas k = .error .importError := rfl

/-- C10: `DoclingApiLoader.load` never raises and always returns exactly
one `Document`: on a successful conversion its `page_content` is the
extracted content (the placeholder `"<No text content found>"` when the
response carries none), and on an HTTP error or a raised exception it is
the `"Error during processing: "`-prefixed message. -/
theorem docling_load_single_document (file_name mime_type : String) (resp : ApiResponse) :
    (DoclingApiLoader.load file_name mime_type resp).length = 1 ∧
    (∀ result, resp = .ok result →
      (DoclingApiLoader.load file_name mime_type resp).head?.map Document.page_content =
        some (extractContent result) ∧
      (rawContent result = "" →
        (DoclingApiLoader.load file_name mime_type resp).head?.map Document.page_content =
          some "<No text content found>")) ∧
    (∀ status reason body detail, resp = .httpError status reason body detail →
      (DoclingApiLoader.load file_name mime_type resp).head?.map Document.page_content =
        some ("Error during processing: " ++ doclingErrorMsg status reason body detail)) ∧
    (∀ msg, resp = .raised msg →
      (DoclingApiLoader.load file_name mime_type resp).head?.map Document.page_content =
        some ("Error during processing: " ++ msg)) := by
  refine ⟨?_, ?_, ?_, ?_⟩
  · cases resp <;> rfl
  · intro result hr
    subst hr
    have hcontent : (DoclingApiLoader.load file_name mime_type (.ok result)).head?.map
        Document.page_content = some (extractContent result) := rfl
    refine ⟨hcontent, ?_⟩
    intro hraw
    have hph : extractContent result = "<No text content found>" := by
      unfold extractContent
      rw [hraw]
      rfl
    rw [hcontent, hph]
  · intro status reason body detail hr
    subst hr
    rfl
  · intro msg hr
    subst hr
    rfl

/-- Witness for C10 at a concrete success and a concrete exception. -/
theorem docling_load_single_document_witness :
    (DoclingApiLoader.load "report.pdf" "application/pdf"
        (.ok ⟨some "hello", none, none, none, none, none⟩)).length = 1 ∧
    (DoclingApiLoader.load "report.pdf" "application/pdf"
        (.ok ⟨some "hello", none, none, none, none, none⟩)).head?.map Document.page_content =
      some (extractContent ⟨some "hello", none, none, none, none, none⟩) ∧
    ((DoclingApiLoader.load "report.pdf" "application/pdf" (.raised "boom")).head?.map
        Document.page_content).isSome = true := by
  refine ⟨(docling_load_single_document _ _ _).1,
    ((docling_load_single_document _ _ _).2.1 _ rfl).1, ?_⟩
  have h := (docling_load_single_document "report.pdf" "application/pdf"
    (.raised "boom")).2.2.2 "boom" rfl
  rw [h]
  rfl

end OpenWebUI
